import Mathlib

/-!
Verification development for `src/data_generation/github_issues_extractor.py`:
a shallow embedding of the resilient paginated issue crawler (rate-limit
tracker, comment fetcher, page walker, resume ledger, crawl controller) and
theorems about the behaviours the specification claims.

Conventions of the embedding:
* Remote HTTP interactions are modelled by explicit data: a page-listing
  response is a `Page` (items, optional `next` link, rate-limit headers);
  a comments fetch is a `CommentsFetch` (either a raised
  `requests.exceptions.RequestException`, or a response with headers and a
  comment list).
* Python exceptions that the code does NOT catch are modelled with
  `Except PyErr`; `requests.exceptions.RequestException` at the places the
  code catches it is modelled by the corresponding constructor
  (`CommentsFetch.raised`, `PageFetch.raised`).
* Machine integers are `Nat` (the counters in the source are small
  non-negative Python ints; no overflow semantics are involved).
* Pure real-time delays (`time.sleep`) have no observable effect beyond the
  slept duration, which is recorded in the results where a claim needs it.
-/

namespace Extractor

/-- `MAX_ISSUES_PER_REPO = 100` from the configuration block. -/
def MAX_ISSUES_PER_REPO : Nat := 100

/-- The rate-limit headers of an API response.  The source reads them with
`int(headers.get('X-RateLimit-…', 0))`: a missing header yields the default
`0`, a present header is a decimal string parsed by `int`.  We model each
header by its parsed value (`none` = header absent). -/
structure Headers where
  rateLimitRemaining : Option Nat
  rateLimitLimit : Option Nat
  rateLimitReset : Option Nat
deriving DecidableEq, Repr

/-- Python exceptions that escape the crawler's `except` clauses:
`TypeError` out of `respectful_wait`, and `AttributeError` out of
`record.get('repo')` in the resume-ledger scan. -/
inductive PyErr
  | typeError
  | attributeError
deriving DecidableEq, Repr

/-- Models `datetime.fromtimestamp(reset_timestamp).strftime('%Y-%m-%d %H:%M:%S')`
in `get_rate_limit_status`.  No claim inspects the text of this string; what
matters to the embedding is that the reset time is rendered as a *string*
(see `datetime_fromtimestamp_of_str`). -/
def format_reset_time (ts : Nat) : String :=
  "%Y-%m-%d %H:%M:%S rendering of " ++ toString ts

/-- `get_rate_limit_status(headers)`: returns
`(remaining, limit, reset_time)` where `reset_time` is the strftime-formatted
**string**, exactly as in the source (lines 49–55). -/
def get_rate_limit_status (headers : Headers) : Nat × Nat × String :=
  let remaining := headers.rateLimitRemaining.getD 0
  let limit := headers.rateLimitLimit.getD 0
  let reset_timestamp := headers.rateLimitReset.getD 0
  let reset_time := format_reset_time reset_timestamp
  (remaining, limit, reset_time)

/-- `datetime.fromtimestamp` as invoked in `respectful_wait` (line 60), where
its argument is `reset_time`, the formatted *string* returned by
`get_rate_limit_status`.  CPython raises `TypeError` whenever
`datetime.fromtimestamp` receives a `str`, whatever its content. -/
def datetime_fromtimestamp_of_str (_s : String) : Except PyErr Int :=
  .error PyErr.typeError

/-- `respectful_wait(headers)` (lines 57–63).  Result `.ok w` means the
function returned normally after sleeping `w` seconds (`w = 0`: returned
immediately); `.error e` means an uncaught exception escaped.

When `remaining < 20` the source computes
`max(datetime.fromtimestamp(reset_time) - datetime.now(), 0).total_seconds() + 10`;
`datetime.fromtimestamp(reset_time)` raises `TypeError` because `reset_time`
is a string, so the sleep is never reached (and even with a numeric reset,
`max(timedelta, 0)` would raise `TypeError` when comparing a timedelta with
the int `0`).  The `.ok` branch under the match is therefore dead code; the
value `10` recorded there (the `+ 10` safety margin) is never produced. -/
def respectful_wait (headers : Headers) : Except PyErr Nat :=
  let (remaining, _limit, reset_time) := get_rate_limit_status headers
  if remaining < 20 then
    match datetime_fromtimestamp_of_str reset_time with
    | .error e => .error e
    | .ok _reset => .ok 10
  else
    .ok 0

/-- A raw comment as returned by the comments endpoint: the fields the source
reads are `comment['user']['login']` and `comment['body']` (which may be
JSON `null`, hence `Option`). -/
structure RawComment where
  author : String
  body : Option String
deriving DecidableEq, Repr

/-- The persisted comment projection `{"author": …, "body": …}`. -/
structure CommentRecord where
  author : String
  body : Option String
deriving DecidableEq, Repr

/-- Python truthiness of `comment['body']` / `record.get('repo')`:
`None` and the empty string are falsy. -/
def pyTruthy : Option String → Bool
  | none => false
  | some s => !(s == "")

/-- Outcome of `requests.get(comments_url)` + `raise_for_status()`:
either a `requests.exceptions.RequestException` was raised (transport
failure or non-2xx status), or a response with headers and a parsed comment
list was obtained. -/
inductive CommentsFetch
  | raised
  | ok (headers : Headers) (comments : List RawComment)
deriving DecidableEq, Repr

/-- `get_issue_comments(comments_url, headers)` (lines 65–84).

On a `RequestException` the `except` clause logs a warning and returns `[]`.
On success the source calls `respectful_wait(response.headers)` (whose
`TypeError`, if any, is *not* a `RequestException` and escapes the `try`)
and then keeps, in order, the comments with truthy body, projected to
`{author, body}`. -/
def get_issue_comments : CommentsFetch → Except PyErr (List CommentRecord)
  | .raised => .ok []
  | .ok headers comments =>
    match respectful_wait headers with
    | .error e => .error e
    | .ok _ =>
      .ok ((comments.filter fun c => pyTruthy c.body).map
            fun c => { author := c.author, body := c.body })

/-- An issue summary as delivered by the search endpoint: the fields the
source reads (number, `html_url`, `title`, `user.login`, `body` — possibly
`null` —, label names) together with the remote's response to the
`comments_url` fetch for this issue. -/
structure Issue where
  number : Nat
  html_url : String
  title : String
  author : String
  body : Option String
  labels : List String
  commentsFetch : CommentsFetch
deriving DecidableEq, Repr

/-- The persisted record assembled in `scrape_repo` (lines 131–141). -/
structure IssueRecord where
  repo : String
  issue_number : Nat
  issue_url : String
  issue_title : String
  issue_author : String
  issue_body : Option String
  issue_labels : List String
  comments : List CommentRecord
deriving DecidableEq, Repr

/-- The `record = {...}` dictionary built for one issue. -/
def mkRecord (repo_name : String) (issue : Issue) (comments : List CommentRecord) :
    IssueRecord :=
  { repo := repo_name
    issue_number := issue.number
    issue_url := issue.html_url
    issue_title := issue.title
    issue_author := issue.author
    issue_body := issue.body
    issue_labels := issue.labels
    comments := comments }

/-- Label quoting in `scrape_repo` (lines 91–99): a label containing a space
is wrapped in double quotes before being joined into the query. -/
def quoteLabel (label : String) : String :=
  if label.contains ' ' then "\"" ++ label ++ "\"" else label

/-- `labels_for_query = ','.join(quoted_labels)`. -/
def labels_for_query (labels_to_search : List String) : String :=
  String.intercalate "," (labels_to_search.map quoteLabel)

/-- One response of the search endpoint: `data.get('items', [])`, the
presence/target of `response.links['next']`, and the rate-limit headers. -/
structure Page where
  items : List Issue
  next : Option String
  headers : Headers
deriving DecidableEq, Repr

/-- Result of the `for issue in issues` loop of `scrape_repo`
(lines 122–145): the records appended to the output file by this page, the
updated `issues_scraped` counter, and the uncaught exception, if one escaped
(a `TypeError` out of `get_issue_comments` is not a `RequestException`, so
the surrounding `except` clause does not catch it). -/
structure ProcOut where
  records : List IssueRecord
  scraped : Nat
  err : Option PyErr
deriving DecidableEq, Repr

/-- The `for issue in issues` loop: for each issue, break when
`issues_scraped >= MAX_ISSUES_PER_REPO`, otherwise fetch the comments,
append the assembled record to the output file, and increment the counter
(the `time.sleep(1)` politeness delay has no observable effect). -/
def processIssues (repo_name : String) : List Issue → Nat → ProcOut
  | [], issues_scraped => ⟨[], issues_scraped, none⟩
  | issue :: rest, issues_scraped =>
    if MAX_ISSUES_PER_REPO ≤ issues_scraped then ⟨[], issues_scraped, none⟩
    else
      match get_issue_comments issue.commentsFetch with
      | .error e => ⟨[], issues_scraped, some e⟩
      | .ok comments =>
        let out := processIssues repo_name rest (issues_scraped + 1)
        ⟨mkRecord repo_name issue comments :: out.records, out.scraped, out.err⟩

/-- Result of `scrape_repo` on a remote page chain: the records appended,
the final `issues_scraped`, how many page-listing requests were answered,
and the uncaught exception if the run crashed. -/
structure ScrapeOut where
  records : List IssueRecord
  scraped : Nat
  pagesFetched : Nat
  crashed : Option PyErr
deriving DecidableEq, Repr

/-- The `while url and issues_scraped < MAX_ISSUES_PER_REPO` loop of
`scrape_repo` (lines 109–157) on an error-free remote, modelled as the chain
of successive page responses (element `k` answers the `k`-th page request;
the loop follows `response.links['next']` into the tail).  Per iteration,
matching the source order: fetch the page; `break` if `items` is empty;
run the issue loop; set `url` from the `next` link (or `None`); call
`respectful_wait(response.headers)`, whose `TypeError` (not a
`RequestException`) escapes the `try` and aborts the crawl. -/
def scrape_repo_pages (repo_name : String) : List Page → Nat → ScrapeOut
  | [], issues_scraped => ⟨[], issues_scraped, 0, none⟩
  | page :: rest, issues_scraped =>
    if MAX_ISSUES_PER_REPO ≤ issues_scraped then ⟨[], issues_scraped, 0, none⟩
    else if page.items.isEmpty then ⟨[], issues_scraped, 1, none⟩
    else
      let po := processIssues repo_name page.items issues_scraped
      match po.err with
      | some e => ⟨po.records, po.scraped, 1, some e⟩
      | none =>
        match respectful_wait page.headers with
        | .error e => ⟨po.records, po.scraped, 1, some e⟩
        | .ok _ =>
          match page.next with
          | some _ =>
            let out := scrape_repo_pages repo_name rest po.scraped
            ⟨po.records ++ out.records, out.scraped, 1 + out.pagesFetched, out.crashed⟩
          | none => ⟨po.records, po.scraped, 1, none⟩

/-- Number of matching issues a remote page chain offers. -/
def offered (chain : List Page) : Nat :=
  (chain.map fun page => page.items.length).sum

/-! ### Step-level view of the `scrape_repo` loop

For the retry behaviour (the `except requests.exceptions.RequestException`
clause at lines 154–157) the chain model above is too coarse: a failed
request consumes no page.  `scrape_repo_step` is one execution of the
`while` body against a remote modelled as a function from URL to outcome. -/

/-- The loop variables of `scrape_repo`: the current page URL (`None` after
the final page) and the `issues_scraped` counter. -/
structure LoopState where
  url : Option String
  issues_scraped : Nat
deriving DecidableEq, Repr

/-- Outcome of `requests.get(url)` + `raise_for_status()` for a page-listing
request: a raised `requests.exceptions.RequestException` (transport or
non-2xx server error), or a parsed page. -/
inductive PageFetch
  | raised
  | ok (page : Page)
deriving DecidableEq, Repr

/-- Observable outcome of one iteration of the `while` loop (or of the guard
test that exits it): the successor loop state, the records appended during
the iteration, the fixed wait performed by the `except` clause (`some 60`
exactly when the page request raised), the uncaught exception if one escaped,
and whether the loop has exited. -/
structure StepOut where
  state : LoopState
  appended : List IssueRecord
  retryWait : Option Nat
  crashed : Option PyErr
  exited : Bool
deriving DecidableEq, Repr

/-- One iteration of `while url and issues_scraped < MAX_ISSUES_PER_REPO`:
guard failure exits the loop; a raised page request prints the error, sleeps
60 seconds and loops with `url` and `issues_scraped` unchanged; an empty
page `break`s; otherwise the issue loop runs, `url` is set from the `next`
link, and `respectful_wait` runs (its `TypeError` aborting the crawl). -/
def scrape_repo_step (repo_name : String) (fetch : String → PageFetch)
    (st : LoopState) : StepOut :=
  match st.url with
  | none => ⟨st, [], none, none, true⟩
  | some url =>
    if MAX_ISSUES_PER_REPO ≤ st.issues_scraped then ⟨st, [], none, none, true⟩
    else
      match fetch url with
      | .raised => ⟨st, [], some 60, none, false⟩
      | .ok page =>
        if page.items.isEmpty then ⟨st, [], none, none, true⟩
        else
          let po := processIssues repo_name page.items st.issues_scraped
          match po.err with
          | some e => ⟨⟨some url, po.scraped⟩, po.records, none, some e, true⟩
          | none =>
            match respectful_wait page.headers with
            | .error e => ⟨⟨page.next, po.scraped⟩, po.records, none, some e, true⟩
            | .ok _ => ⟨⟨page.next, po.scraped⟩, po.records, none, none, false⟩

/-- `k` successive iterations of the loop body, tracking the loop state. -/
def scrape_repo_iter (repo_name : String) (fetch : String → PageFetch) :
    Nat → LoopState → LoopState
  | 0, st => st
  | k + 1, st => scrape_repo_iter repo_name fetch k (scrape_repo_step repo_name fetch st).state

/-! ### Resume ledger -/

/-- One line of the output file as seen by `json.loads` + `record.get('repo')`.
Three outcomes are possible in the source:
* `decodeError` — the line raised `json.JSONDecodeError` (caught: warning,
  line skipped);
* `nonDict` — the line is valid JSON but not an object (`null`, a number, a
  string, an array, a boolean): `json.loads` succeeds and the subsequent
  `record.get('repo')` raises `AttributeError`, which the
  `except json.JSONDecodeError` clause does **not** catch;
* `record repo` — the line is a JSON object, with `repo` the value of its
  `repo` field (`none` = field absent).  The field is modelled as an
  optional string: the crawler itself only ever writes string `repo`
  fields, and an object with a non-string `repo` value would be counted
  under a key that no configured repository name can equal, which no claim
  distinguishes. -/
inductive LedgerLine
  | decodeError
  | nonDict
  | record (repo : Option String)
deriving DecidableEq, Repr

/-- The `for line in f` loop of `get_existing_issue_counts` (lines 167–175):
a `JSONDecodeError` line is skipped with a warning; a non-object line makes
`record.get('repo')` raise `AttributeError`, aborting the scan (uncaught);
an object line increments `counts[repo]` when its `repo` field is truthy
(`if repo:`, so an absent field or an empty string does not count). -/
def ledgerScan : List LedgerLine → (String → Nat) → Except PyErr (String → Nat)
  | [], counts => .ok counts
  | .decodeError :: rest, counts => ledgerScan rest counts
  | .nonDict :: _, _ => .error PyErr.attributeError
  | .record none :: rest, counts => ledgerScan rest counts
  | .record (some name) :: rest, counts =>
    if pyTruthy (some name) then
      ledgerScan rest (fun r => if r = name then counts r + 1 else counts r)
    else ledgerScan rest counts

/-- `get_existing_issue_counts()` (lines 161–176) over the lines of the
output file.  The Python dict is modelled by its lookup-with-default
function, matching the only use `existing_counts.get(repo, 0)`; a missing
output file is the empty line list.  The result is `.error` when the scan
raises (see `ledgerScan`) instead of returning a mapping. -/
def get_existing_issue_counts (lines : List LedgerLine) : Except PyErr (String → Nat) :=
  ledgerScan lines (fun _ => 0)

/-- The mapping produced by a completed scan (and the all-zero default when
the scan raises): a convenience projection for stating concrete results. -/
def countsOf (lines : List LedgerLine) : String → Nat :=
  match get_existing_issue_counts lines with
  | .ok counts => counts
  | .error _ => fun _ => 0

/-! ### Crawl controller (`main`) -/

/-- Result of the `for repo, config in TARGET_CONFIG.items()` loop: the
records appended per scraped repository (in processing order), the total
number of page requests answered, and the uncaught exception if some
`scrape_repo` call crashed (aborting the rest of the loop). -/
structure CrawlOut where
  perRepo : List (String × List IssueRecord)
  pagesFetched : Nat
  crashed : Option PyErr
deriving DecidableEq, Repr

/-- The repository loop of `main` (lines 194–199): a repository whose
existing count is already `>= MAX_ISSUES_PER_REPO` is skipped with
`continue`; otherwise `scrape_repo` runs against that repository's remote
page chain, always starting its counter at `issues_scraped = 0`. -/
def crawl_repos (existing_counts : String → Nat) :
    List (String × List Page) → CrawlOut
  | [] => ⟨[], 0, none⟩
  | (repo, chain) :: rest =>
    if MAX_ISSUES_PER_REPO ≤ existing_counts repo then crawl_repos existing_counts rest
    else
      let out := scrape_repo_pages repo chain 0
      match out.crashed with
      | some e => ⟨[(repo, out.records)], out.pagesFetched, some e⟩
      | none =>
        let restOut := crawl_repos existing_counts rest
        ⟨(repo, out.records) :: restOut.perRepo,
          out.pagesFetched + restOut.pagesFetched, restOut.crashed⟩

/-- Records appended for one repository by a crawl (accounting helper:
total length of the record lists tagged with that repository). -/
def appendedFor (perRepo : List (String × List IssueRecord)) (repo : String) : Nat :=
  (perRepo.map fun pr => if pr.1 = repo then pr.2.length else 0).sum

/-- Observable outcome of `main()` (lines 178–201): the fatal `sys.exit(1)`
taken when `GITHUB_TOKEN` is falsy — before any request is issued or any
record appended —, an uncaught exception out of the
`get_existing_issue_counts` scan (also before any request or append), or a
pass over the repository loop. -/
inductive MainResult
  | fatalExit (code : Nat)
  | crashed (e : PyErr)
  | ran (out : CrawlOut)
deriving DecidableEq, Repr

/-- `main()`: `GITHUB_TOKEN = os.getenv('GITHUB_TOKEN')` is `none` when the
variable is absent; `if not GITHUB_TOKEN: … sys.exit(1)`.  Otherwise the
existing counts are computed once (a scan crash propagating) and the
repository loop runs. -/
def main (githubToken : Option String) (lines : List LedgerLine)
    (targets : List (String × List Page)) : MainResult :=
  if !(pyTruthy githubToken) then .fatalExit 1
  else
    match get_existing_issue_counts lines with
    | .error e => .crashed e
    | .ok existing_counts => .ran (crawl_repos existing_counts targets)

/-- Total records appended by a `main` outcome (0 when the run ended before
the repository loop). -/
def mainRecords : MainResult → Nat
  | .fatalExit _ => 0
  | .crashed _ => 0
  | .ran out => (out.perRepo.map fun pr => pr.2.length).sum

/-- Total page requests answered during a `main` outcome (0 when the run
ended before the repository loop: no network call is made). -/
def mainPagesFetched : MainResult → Nat
  | .fatalExit _ => 0
  | .crashed _ => 0
  | .ran out => out.pagesFetched

/-! ### Fixtures -/

/-- Headers of a response with a comfortable rate budget (`remaining = 4999`). -/
def healthyHeaders : Headers := ⟨some 4999, some 5000, some 1700003600⟩

/-- Headers of the spec's rate-limit scenario: `remaining = 5, limit = 100`. -/
def lowHeaders : Headers := ⟨some 5, some 100, some 1700003600⟩

/-- A well-behaved fixture issue whose comments fetch succeeds with a healthy
budget and an empty comment list. -/
def fixtureIssue (n : Nat) : Issue :=
  { number := n
    html_url := "https://github.com/microsoft/vscode/issues/" ++ toString n
    title := "fixture issue"
    author := "alice"
    body := some "fixture body"
    labels := ["bug"]
    commentsFetch := .ok healthyHeaders [] }

/-! ### Helper lemmas -/

/-- With at least 20 remaining calls, `respectful_wait` returns immediately
without sleeping. -/
theorem respectful_wait_of_high (headers : Headers)
    (hh : 20 ≤ headers.rateLimitRemaining.getD 0) :
    respectful_wait headers = .ok 0 := by
  simp [respectful_wait, get_rate_limit_status, Nat.not_lt.mpr hh]

/-- With fewer than 20 remaining calls (in particular with the headers
missing), `respectful_wait` raises `TypeError`. -/
theorem respectful_wait_of_low (headers : Headers)
    (hh : headers.rateLimitRemaining.getD 0 < 20) :
    respectful_wait headers = .error PyErr.typeError := by
  simp [respectful_wait, get_rate_limit_status, datetime_fromtimestamp_of_str, hh]

/-- `get_issue_comments` succeeds on this issue (its `respectful_wait` call
does not raise). -/
def commentsOk (issue : Issue) : Bool :=
  match get_issue_comments issue.commentsFetch with
  | .ok _ => true
  | .error _ => false

/-- A page response on which the loop body cannot crash: its own headers keep
`respectful_wait` quiet and every item's comments fetch succeeds. -/
def pageHealthy (page : Page) : Prop :=
  20 ≤ page.headers.rateLimitRemaining.getD 0 ∧
    ∀ issue ∈ page.items, commentsOk issue = true

instance (page : Page) : Decidable (pageHealthy page) := by
  unfold pageHealthy; infer_instance

/-- A remote page chain shaped like real search results: pages are non-empty
and every page but the last advertises a `next` link (so all offered issues
are reachable). -/
def chainWellFormed : List Page → Prop
  | [] => True
  | [page] => page.items ≠ []
  | page :: rest => page.items ≠ [] ∧ page.next ≠ none ∧ chainWellFormed rest

/-- Counting behaviour of the issue loop when no comments fetch crashes:
no error escapes, and the counter rises from `s` to
`max (min (s + issues.length) MAX_ISSUES_PER_REPO) s`, with one appended
record per increment. -/
theorem processIssues_healthy (repo_name : String) (issues : List Issue) :
    ∀ s : Nat, (∀ issue ∈ issues, commentsOk issue = true) →
      (processIssues repo_name issues s).err = none ∧
      (processIssues repo_name issues s).scraped
        = max (min (s + issues.length) MAX_ISSUES_PER_REPO) s ∧
      (processIssues repo_name issues s).records.length
        = max (min (s + issues.length) MAX_ISSUES_PER_REPO) s - s := by
  induction issues with
  | nil => intro s _; refine ⟨rfl, ?_, ?_⟩ <;> simp [processIssues]
  | cons issue rest ih =>
    intro s h
    have hok : commentsOk issue = true := h issue (by simp)
    by_cases hcap : MAX_ISSUES_PER_REPO ≤ s
    · refine ⟨?_, ?_, ?_⟩ <;> simp [processIssues, hcap]
    · obtain ⟨cs, hcs⟩ : ∃ cs, get_issue_comments issue.commentsFetch = .ok cs := by
        unfold commentsOk at hok
        cases hgc : get_issue_comments issue.commentsFetch with
        | ok cs => exact ⟨cs, rfl⟩
        | error e => rw [hgc] at hok; simp at hok
      have hrest := ih (s + 1) (fun i hi => h i (by simp [hi]))
      refine ⟨?_, ?_, ?_⟩ <;>
        simp [processIssues, hcap, hcs, hrest.1, hrest.2.1, hrest.2.2] <;> omega

/-- Counting behaviour of the page loop on a well-formed, healthy remote:
the run does not crash and collects
`max (min (s + offered chain) MAX_ISSUES_PER_REPO) s - s` records.  In
particular a remote offering more than the cap yields exactly the cap. -/
theorem scrape_repo_pages_count (repo_name : String) :
    ∀ chain : List Page, chainWellFormed chain → (∀ page ∈ chain, pageHealthy page) →
      ∀ s : Nat, (scrape_repo_pages repo_name chain s).crashed = none ∧
        (scrape_repo_pages repo_name chain s).scraped
          = max (min (s + offered chain) MAX_ISSUES_PER_REPO) s ∧
        (scrape_repo_pages repo_name chain s).records.length
          = max (min (s + offered chain) MAX_ISSUES_PER_REPO) s - s := by
  intro chain
  induction chain with
  | nil => intro _ _ s; refine ⟨rfl, ?_, ?_⟩ <;> simp [scrape_repo_pages, offered]
  | cons page rest ih =>
    intro hwf hh s
    have hpage : pageHealthy page := hh page (by simp)
    have hitems : page.items ≠ [] := by
      cases rest with
      | nil => exact hwf
      | cons q t => exact hwf.1
    by_cases hcap : MAX_ISSUES_PER_REPO ≤ s
    · refine ⟨?_, ?_, ?_⟩ <;> simp [scrape_repo_pages, hcap, offered]
    · have hempty : page.items.isEmpty = false := by
        simp [List.isEmpty_iff, hitems]
      have hpo := processIssues_healthy repo_name page.items s hpage.2
      have hwait := respectful_wait_of_high page.headers hpage.1
      cases hnext : page.next with
      | none =>
        have hrest : rest = [] := by
          cases rest with
          | nil => rfl
          | cons q t => exact absurd hnext hwf.2.1
        subst hrest
        refine ⟨?_, ?_, ?_⟩ <;>
          simp [scrape_repo_pages, hcap, hempty, hpo.1, hwait, hnext, offered,
            hpo.2.1, hpo.2.2]
      | some nextUrl =>
        have hwfrest : chainWellFormed rest := by
          cases rest with
          | nil => trivial
          | cons q t => exact hwf.2.2
        have hrest := ih hwfrest (fun p hp => hh p (by simp [hp]))
          (processIssues repo_name page.items s).scraped
        have hunfold : scrape_repo_pages repo_name (page :: rest) s
            = ⟨(processIssues repo_name page.items s).records
                ++ (scrape_repo_pages repo_name rest
                      (processIssues repo_name page.items s).scraped).records,
               (scrape_repo_pages repo_name rest
                  (processIssues repo_name page.items s).scraped).scraped,
               1 + (scrape_repo_pages repo_name rest
                  (processIssues repo_name page.items s).scraped).pagesFetched,
               (scrape_repo_pages repo_name rest
                  (processIssues repo_name page.items s).scraped).crashed⟩ := by
          simp only [scrape_repo_pages, if_neg hcap, hempty, Bool.false_eq_true,
            if_false, hpo.1, hwait, hnext]
        rw [hunfold]
        have hoff : offered (page :: rest) = page.items.length + offered rest := by
          simp [offered]
        refine ⟨hrest.1, ?_, ?_⟩
        · rw [hrest.2.1, hpo.2.1, hoff]
          omega
        · show ((processIssues repo_name page.items s).records
              ++ (scrape_repo_pages repo_name rest
                    (processIssues repo_name page.items s).scraped).records).length = _
          rw [List.length_append, hpo.2.2, hrest.2.2, hpo.2.1, hoff]
          omega

/-- `appendedFor` of the empty crawl output. -/
theorem appendedFor_nil (repo : String) : appendedFor [] repo = 0 := rfl

/-- Unfolding `appendedFor` over a cons cell. -/
theorem appendedFor_cons (pr : String × List IssueRecord)
    (rest : List (String × List IssueRecord)) (repo : String) :
    appendedFor (pr :: rest) repo
      = (if pr.1 = repo then pr.2.length else 0) + appendedFor rest repo := by
  simp [appendedFor]

/-- A repository already at or above the cap receives no records from the
repository loop, whatever the other targets do. -/
theorem appendedFor_skip (existing_counts : String → Nat) (repo : String)
    (h : MAX_ISSUES_PER_REPO ≤ existing_counts repo) :
    ∀ targets : List (String × List Page),
      appendedFor (crawl_repos existing_counts targets).perRepo repo = 0 := by
  intro targets
  induction targets with
  | nil => rfl
  | cons t rest ih =>
    obtain ⟨r, chain⟩ := t
    by_cases hskip : MAX_ISSUES_PER_REPO ≤ existing_counts r
    · simpa [crawl_repos, hskip] using ih
    · have hr : r ≠ repo := fun he => hskip (he ▸ h)
      simp only [crawl_repos, if_neg hskip]
      cases hc : (scrape_repo_pages r chain 0).crashed with
      | some e => simp [hc, appendedFor_cons, appendedFor_nil, hr]
      | none => simp [hc, appendedFor_cons, hr, ih]

/-- A ledger line that parses to an object whose `repo` field equals `r`. -/
def carries (r : String) : LedgerLine → Bool
  | .record (some repo) => repo == r
  | _ => false

/-- On a store with no valid-JSON-non-object line, the ledger scan completes
and counts, for any repository name `r ≠ ""`, exactly the parseable lines
carrying `r`, on top of whatever the accumulator held. -/
theorem ledgerScan_count (r : String) (hr : r ≠ "") :
    ∀ (lines : List LedgerLine) (counts : String → Nat),
      (∀ l ∈ lines, l ≠ LedgerLine.nonDict) →
      ∃ final, ledgerScan lines counts = .ok final ∧
        final r = counts r + lines.countP (carries r) := by
  intro lines
  induction lines with
  | nil => intro counts _; exact ⟨counts, rfl, by simp⟩
  | cons line rest ih =>
    intro counts hnd
    have hndr : ∀ l ∈ rest, l ≠ LedgerLine.nonDict := fun l hl => hnd l (by simp [hl])
    cases line with
    | decodeError =>
      obtain ⟨final, h1, h2⟩ := ih counts hndr
      exact ⟨final, h1, by rw [h2]; simp [List.countP_cons, carries]⟩
    | nonDict => exact absurd rfl (hnd .nonDict (by simp))
    | record field =>
      cases field with
      | none =>
        obtain ⟨final, h1, h2⟩ := ih counts hndr
        exact ⟨final, h1, by rw [h2]; simp [List.countP_cons, carries]⟩
      | some repo =>
        by_cases hrep : repo = ""
        · subst hrep
          obtain ⟨final, h1, h2⟩ := ih counts hndr
          refine ⟨final, ?_, ?_⟩
          · simpa [ledgerScan, pyTruthy] using h1
          · rw [h2]
            have : ("" == r) = false := by simp [Ne.symm hr]
            simp [List.countP_cons, carries, this]
        · obtain ⟨final, h1, h2⟩ :=
            ih (fun s => if s = repo then counts s + 1 else counts s) hndr
          refine ⟨final, ?_, ?_⟩
          · simpa [ledgerScan, pyTruthy, hrep] using h1
          · rw [h2]
            by_cases hrr : r = repo
            · subst hrr
              simp [List.countP_cons, carries]
              omega
            · have hne : ¬repo = r := fun he => hrr he.symm
              have : (repo == r) = false := by simp [hne]
              simp [List.countP_cons, carries, this, hrr]

/-! ### Claim theorems -/

/-- C3: the claim states that `respectful_wait` always returns normally —
sleeping `max(resetAt - now, 0)` plus a safety margin when the reported
remaining count is below 20 (missing headers counting as remaining = 0) and
returning immediately without sleeping when it is at least 20.  The code
meets the `remaining = 50` half (no wait, normal return), but on
`remaining = 5` — and on missing headers — the wait path raises `TypeError`
instead of sleeping: `get_rate_limit_status` renders the reset time as an
strftime **string** and `respectful_wait` passes that string to
`datetime.fromtimestamp`. -/
theorem respectful_wait_crash_eval :
    respectful_wait lowHeaders = .error PyErr.typeError ∧
    (get_rate_limit_status lowHeaders).1 = 5 ∧
    respectful_wait ⟨some 50, some 100, some 1700003600⟩ = .ok 0 ∧
    respectful_wait ⟨none, none, none⟩ = .error PyErr.typeError :=
  ⟨rfl, rfl, rfl, rfl⟩

/-- C5: when the comments fetch raises a transport error,
`get_issue_comments` returns the empty sequence instead of propagating the
error; the record assembled for that issue carries an empty comment list and
the issue loop continues over the remaining issues unaffected. -/
theorem get_issue_comments_degrades_to_empty (repo_name : String) (issue : Issue)
    (rest : List Issue) (s : Nat) (hc : issue.commentsFetch = .raised)
    (hs : s < MAX_ISSUES_PER_REPO) :
    get_issue_comments issue.commentsFetch = .ok [] ∧
    processIssues repo_name (issue :: rest) s =
      ⟨mkRecord repo_name issue [] :: (processIssues repo_name rest (s + 1)).records,
        (processIssues repo_name rest (s + 1)).scraped,
        (processIssues repo_name rest (s + 1)).err⟩ := by
  have h1 : get_issue_comments issue.commentsFetch = .ok [] := by rw [hc]; rfl
  refine ⟨h1, ?_⟩
  simp [processIssues, Nat.not_le.mpr hs, h1]

/-- An issue whose comments fetch raises a transport error. -/
def raisedIssue : Issue :=
  { number := 7
    html_url := "https://github.com/microsoft/vscode/issues/7"
    title := "comments endpoint times out"
    author := "bob"
    body := some "body"
    labels := ["bug"]
    commentsFetch := .raised }

theorem get_issue_comments_degrades_to_empty_witness :
    get_issue_comments raisedIssue.commentsFetch = .ok [] ∧
    processIssues "microsoft/vscode" [raisedIssue] 0 =
      ⟨[mkRecord "microsoft/vscode" raisedIssue []], 1, none⟩ := by
  have h := get_issue_comments_degrades_to_empty "microsoft/vscode" raisedIssue
    [] 0 rfl (by decide)
  exact ⟨h.1, h.2⟩

/-- The spec's comment-filter fixture: one empty-body and two
non-empty-body comments. -/
def demoComments : List RawComment :=
  [{ author := "alice", body := some "" },
   { author := "bob", body := some "It still crashes on save." },
   { author := "carol", body := some "Fixed by 1.82." }]

/-- C6: the claim states that every successfully fetched comment list is
returned filtered to its non-empty-body comments, projected to
`{author, body}` in the original order.  That holds when the response's
rate-limit headers report at least 20 remaining calls (second conjunct: the
fixture list of one empty-body and two non-empty-body comments yields the
two non-empty ones, in order).  But on a *successful* fetch whose headers
report `remaining = 5`, `get_issue_comments` raises `TypeError` (through
`respectful_wait`, called before the list is formatted) instead of returning
the filtered sequence (first conjunct). -/
theorem get_issue_comments_filter_eval :
    get_issue_comments (.ok lowHeaders demoComments) = .error PyErr.typeError ∧
    get_issue_comments (.ok healthyHeaders demoComments) =
      .ok [{ author := "bob", body := some "It still crashes on save." },
           { author := "carol", body := some "Fixed by 1.82." }] :=
  ⟨rfl, rfl⟩

/-- C4: the page loop stops producing pages as soon as a fetched page has
zero items, even when that response carries a `next` link (first conjunct:
the loop exits with exactly one page fetched and nothing appended); and when
a response carries no `next` link the loop stops after that page regardless
of its item count (second conjunct: exactly one page request is ever
answered). -/
theorem scrape_repo_page_loop_stops (repo_name : String) (page : Page)
    (rest : List Page) (s : Nat) (hs : s < MAX_ISSUES_PER_REPO) :
    (page.items.isEmpty = true →
      scrape_repo_pages repo_name (page :: rest) s = ⟨[], s, 1, none⟩) ∧
    (page.next = none →
      (scrape_repo_pages repo_name (page :: rest) s).pagesFetched = 1) := by
  constructor
  · intro hempty
    simp [scrape_repo_pages, Nat.not_le.mpr hs, hempty]
  · intro hnext
    by_cases hempty : page.items.isEmpty = true
    · simp [scrape_repo_pages, Nat.not_le.mpr hs, hempty]
    · simp only [scrape_repo_pages, if_neg (Nat.not_le.mpr hs), hempty,
        Bool.false_eq_true, if_false]
      cases hpoe : (processIssues repo_name page.items s).err with
      | some e => simp [hpoe]
      | none =>
        cases hw : respectful_wait page.headers with
        | error e => simp [hpoe, hw]
        | ok w => simp [hpoe, hw, hnext]

/-- An empty search page that still advertises a `next` link. -/
def emptyPage : Page :=
  ⟨[], some "https://api.github.com/search/issues?q=x&page=2", healthyHeaders⟩

/-- A final page: three items, no `next` link. -/
def lastPage : Page := ⟨[fixtureIssue 1, fixtureIssue 2, fixtureIssue 3], none, healthyHeaders⟩

theorem scrape_repo_page_loop_stops_witness :
    scrape_repo_pages "microsoft/vscode" [emptyPage, lastPage] 0 = ⟨[], 0, 1, none⟩ ∧
    (scrape_repo_pages "microsoft/vscode" [lastPage] 0).pagesFetched = 1 := by
  refine ⟨(scrape_repo_page_loop_stops "microsoft/vscode" emptyPage [lastPage] 0
      (by decide)).1 rfl,
    (scrape_repo_page_loop_stops "microsoft/vscode" lastPage [] 0 (by decide)).2 rfl⟩

/-- C8: when the page-listing request raises a transport or server error,
the loop waits the fixed 60 seconds (`retryWait = some 60`, not exponential),
keeps both the current URL and the per-repository counter unchanged, retries
the same URL (the loop has not exited), escalates nothing (`crashed = none`),
and — having no retry ceiling — any number `k` of consecutive failing
iterations leaves the loop state exactly where it was. -/
theorem page_retry_fixed_wait_unbounded (repo_name : String)
    (fetch : String → PageFetch) (url : String) (s : Nat)
    (hs : s < MAX_ISSUES_PER_REPO) (hf : fetch url = .raised) :
    scrape_repo_step repo_name fetch ⟨some url, s⟩
      = ⟨⟨some url, s⟩, [], some 60, none, false⟩ ∧
    ∀ k : Nat, scrape_repo_iter repo_name fetch k ⟨some url, s⟩ = ⟨some url, s⟩ := by
  have hstep : scrape_repo_step repo_name fetch ⟨some url, s⟩
      = ⟨⟨some url, s⟩, [], some 60, none, false⟩ := by
    simp [scrape_repo_step, Nat.not_le.mpr hs, hf]
  refine ⟨hstep, fun k => ?_⟩
  induction k with
  | zero => rfl
  | succ n ih => rw [scrape_repo_iter, hstep]; exact ih

/-- A remote whose page-listing endpoint fails on every request. -/
def alwaysRaised : String → PageFetch := fun _ => .raised

theorem page_retry_fixed_wait_unbounded_witness :
    scrape_repo_step "microsoft/vscode" alwaysRaised
        ⟨some "https://api.github.com/search/issues?q=r", 0⟩
      = ⟨⟨some "https://api.github.com/search/issues?q=r", 0⟩, [], some 60, none, false⟩ ∧
    scrape_repo_iter "microsoft/vscode" alwaysRaised 1000
        ⟨some "https://api.github.com/search/issues?q=r", 0⟩
      = ⟨some "https://api.github.com/search/issues?q=r", 0⟩ := by
  have h := page_retry_fixed_wait_unbounded "microsoft/vscode" alwaysRaised
    "https://api.github.com/search/issues?q=r" 0 (by decide) rfl
  exact ⟨h.1, h.2 1000⟩

/-- Fresh-run cap fixture: a remote offering 101 matching issues over two
pages, no transport errors anywhere; the first page's rate headers report
`remaining = 5`. -/
def capCrashChain : List Page :=
  [⟨[fixtureIssue 1], some "https://api.github.com/search/issues?q=x&page=2", lowHeaders⟩,
   ⟨(List.range 100).map (fun n => fixtureIssue (n + 2)), none, healthyHeaders⟩]

/-- C1: the claim states that a fresh run against an error-free remote
offering `M > MAX_ISSUES_PER_REPO` matching issues appends exactly
`MAX_ISSUES_PER_REPO` records and then stops.  It fails on `capCrashChain`
(101 issues offered, no transport error): after the single issue of page 1
is persisted, `respectful_wait(response.headers)` sees `remaining = 5` and
raises `TypeError` (the strftime string fed to `datetime.fromtimestamp`),
which is not caught by the `except requests.exceptions.RequestException`
clause — the run crashes with 1 record appended instead of 100. -/
theorem scrape_repo_cap_crash_eval :
    offered capCrashChain = 101 ∧
    MAX_ISSUES_PER_REPO < offered capCrashChain ∧
    (scrape_repo_pages "microsoft/vscode" capCrashChain 0).records.length = 1 ∧
    (scrape_repo_pages "microsoft/vscode" capCrashChain 0).records.length
      ≠ MAX_ISSUES_PER_REPO ∧
    (scrape_repo_pages "microsoft/vscode" capCrashChain 0).crashed
      = some PyErr.typeError := by
  refine ⟨?_, ?_, ?_, ?_, ?_⟩ <;> decide

/-- An existing store holding exactly `MAX_ISSUES_PER_REPO` records for
`facebook/react`. -/
def capLines : List LedgerLine :=
  List.replicate MAX_ISSUES_PER_REPO (LedgerLine.record (some "facebook/react"))

/-- A target list naming that repository. -/
def capTargets : List (String × List Page) := [("facebook/react", [lastPage])]

/-- C2: a repository whose count in the existing store, as computed by a
completed `get_existing_issue_counts` scan, is at least the cap is skipped
entirely by the repository loop: zero records are appended for it in the
new run, so a repository already exactly at the cap still holds exactly the
cap afterwards. -/
theorem resume_gate_skips_at_cap (lines : List LedgerLine)
    (targets : List (String × List Page)) (repo : String)
    (existing_counts : String → Nat)
    (_hscan : get_existing_issue_counts lines = .ok existing_counts)
    (h : MAX_ISSUES_PER_REPO ≤ existing_counts repo) :
    appendedFor (crawl_repos existing_counts targets).perRepo repo = 0 ∧
    (existing_counts repo = MAX_ISSUES_PER_REPO →
      existing_counts repo
        + appendedFor (crawl_repos existing_counts targets).perRepo repo
        = MAX_ISSUES_PER_REPO) := by
  have h0 := appendedFor_skip existing_counts repo h targets
  exact ⟨h0, fun hN => by rw [h0, hN]; omega⟩

set_option maxRecDepth 40000 in
theorem resume_gate_skips_at_cap_witness :
    get_existing_issue_counts capLines = .ok (countsOf capLines) ∧
    MAX_ISSUES_PER_REPO ≤ countsOf capLines "facebook/react" ∧
    appendedFor (crawl_repos (countsOf capLines) capTargets).perRepo
      "facebook/react" = 0 ∧
    countsOf capLines "facebook/react"
      + appendedFor (crawl_repos (countsOf capLines) capTargets).perRepo
          "facebook/react"
      = MAX_ISSUES_PER_REPO := by
  have hcap : MAX_ISSUES_PER_REPO ≤ countsOf capLines "facebook/react" := by
    decide
  have h := resume_gate_skips_at_cap capLines capTargets "facebook/react"
    (countsOf capLines) rfl hcap
  exact ⟨rfl, hcap, h.1, h.2 (by decide)⟩

/-- The spec's malformed-ledger fixture when the invalid line does not even
parse as JSON: one `JSONDecodeError` line, two valid lines for
`acme/widgets`. -/
def demoLedger : List LedgerLine :=
  [LedgerLine.decodeError, LedgerLine.record (some "acme/widgets"),
   LedgerLine.record (some "acme/widgets")]

/-- The same store when the invalid line is valid JSON but not an object
(for instance the single word `null`). -/
def nullLedger : List LedgerLine :=
  [LedgerLine.nonDict, LedgerLine.record (some "acme/widgets"),
   LedgerLine.record (some "acme/widgets")]

/-- C7: the claim states that for **every** existing store,
`get_existing_issue_counts` returns a mapping counting the parseable lines
per repository and skips each line that fails to parse with a warning
rather than raising.  The `JSONDecodeError` half is implemented: on
`demoLedger` (one undecodable line, two valid lines) the scan completes and
yields count 2 for `acme/widgets`, matching the number of parseable
carrying lines.  But a line of valid JSON that is not an object — e.g. a
line holding just `null` — parses, and then `record.get('repo')` raises
`AttributeError`, which the `except json.JSONDecodeError` clause does not
catch: on `nullLedger` the scan raises instead of returning a count of 2. -/
theorem get_existing_issue_counts_crash_eval :
    get_existing_issue_counts nullLedger = .error PyErr.attributeError ∧
    get_existing_issue_counts demoLedger = .ok (countsOf demoLedger) ∧
    countsOf demoLedger "acme/widgets" = 2 ∧
    demoLedger.countP (carries "acme/widgets") = 2 := by
  refine ⟨rfl, rfl, ?_, ?_⟩ <;> decide

/-- C9: with the credential absent, `main` reports the error and exits with
status 1 before any network call (no page request answered) and before any
append (no records); with a token present the crawl proceeds: the token
gate falls through and, the ledger scan having completed, the repository
loop runs. -/
theorem main_token_gate (lines : List LedgerLine)
    (targets : List (String × List Page)) :
    main none lines targets = .fatalExit 1 ∧
    mainRecords (main none lines targets) = 0 ∧
    mainPagesFetched (main none lines targets) = 0 ∧
    (∀ token : String, token ≠ "" →
      ∀ existing_counts : String → Nat,
        get_existing_issue_counts lines = .ok existing_counts →
        main (some token) lines targets
          = .ran (crawl_repos existing_counts targets)) := by
  refine ⟨rfl, rfl, rfl, fun token ht existing_counts hscan => ?_⟩
  simp [main, pyTruthy, ht, hscan]

theorem main_token_gate_witness :
    main none [] [] = .fatalExit 1 ∧
    mainPagesFetched (main none [] []) = 0 ∧
    main (some "ghp_fixture_token") [] []
      = .ran (crawl_repos (countsOf []) []) := by
  have h := main_token_gate [] []
  exact ⟨h.1, h.2.2.1, h.2.2.2 "ghp_fixture_token" (by decide) (countsOf []) rfl⟩

/-- A remote serving one full page of exactly `MAX_ISSUES_PER_REPO` healthy
issues, no `next` link. -/
def fullChain : List Page :=
  [⟨(List.range MAX_ISSUES_PER_REPO).map (fun n => fixtureIssue (n + 1)), none,
    healthyHeaders⟩]

/-- C10: a repository whose existing count `k` (from a completed ledger
scan) satisfies `0 < k < MAX_ISSUES_PER_REPO` is not skipped, and
`scrape_repo` restarts its per-run counter at zero with no per-issue
deduplication: against a remote offering the cap again, the run appends a
further `MAX_ISSUES_PER_REPO` records, so the total persisted count reaches
`k + MAX_ISSUES_PER_REPO`, strictly exceeding the configured cap. -/
theorem resume_gate_undershoot_duplicates (lines : List LedgerLine)
    (existing_counts : String → Nat) (k : Nat)
    (hk0 : 0 < k) (hk : k < MAX_ISSUES_PER_REPO)
    (_hscan : get_existing_issue_counts lines = .ok existing_counts)
    (he : existing_counts "microsoft/vscode" = k) :
    appendedFor (crawl_repos existing_counts
        [("microsoft/vscode", fullChain)]).perRepo "microsoft/vscode"
      = MAX_ISSUES_PER_REPO ∧
    MAX_ISSUES_PER_REPO
      < existing_counts "microsoft/vscode"
        + appendedFor (crawl_repos existing_counts
            [("microsoft/vscode", fullChain)]).perRepo "microsoft/vscode" := by
  have hwf : chainWellFormed fullChain := by
    simp [chainWellFormed, fullChain]
    decide
  have hhealthy : ∀ page ∈ fullChain, pageHealthy page := by decide
  have hcount := scrape_repo_pages_count "microsoft/vscode" fullChain hwf hhealthy 0
  have hoff : offered fullChain = MAX_ISSUES_PER_REPO := by
    simp [offered, fullChain]
  have hlen : (scrape_repo_pages "microsoft/vscode" fullChain 0).records.length
      = MAX_ISSUES_PER_REPO := by
    rw [hcount.2.2, hoff]
    omega
  have hmain : appendedFor (crawl_repos existing_counts
      [("microsoft/vscode", fullChain)]).perRepo "microsoft/vscode"
      = MAX_ISSUES_PER_REPO := by
    simp only [crawl_repos, he,
      if_neg (show ¬ MAX_ISSUES_PER_REPO ≤ k by omega), hcount.1]
    rw [appendedFor_cons]
    simp [appendedFor_nil, hlen]
  exact ⟨hmain, by rw [hmain, he]; omega⟩

/-- An existing store holding three records for `microsoft/vscode`. -/
def threeLines : List LedgerLine :=
  [LedgerLine.record (some "microsoft/vscode"),
   LedgerLine.record (some "microsoft/vscode"),
   LedgerLine.record (some "microsoft/vscode")]

theorem resume_gate_undershoot_duplicates_witness :
    get_existing_issue_counts threeLines = .ok (countsOf threeLines) ∧
    appendedFor (crawl_repos (countsOf threeLines)
        [("microsoft/vscode", fullChain)]).perRepo "microsoft/vscode"
      = MAX_ISSUES_PER_REPO ∧
    MAX_ISSUES_PER_REPO
      < countsOf threeLines "microsoft/vscode"
        + appendedFor (crawl_repos (countsOf threeLines)
            [("microsoft/vscode", fullChain)]).perRepo "microsoft/vscode" := by
  have h := resume_gate_undershoot_duplicates threeLines (countsOf threeLines) 3
    (by decide) (by decide) rfl (by decide)
  exact ⟨rfl, h.1, h.2⟩

end Extractor
